import Mathlib

/-!
Shallow embedding of the parla saddle-point solver stack:
src/parla/comps/determiter/saddle.py (PcSS1, PcSS2, PcSS3) and
src/parla/drivers/saddlesys.py (SPS1, SPS2).

Modelling conventions.
Floating-point arithmetic is modelled by exact real arithmetic.  Vectors of
length k are functions Fin k → ℝ, matrices are Mathlib matrices, la.norm is
the Euclidean norm (Real.sqrt of the sum of squares).  Exceptions raised by
the code are modelled by dedicated constructors of the result inductives.
The iterative kernels pcg and lsqr and the preconditioning helpers live in
modules of this repository that are not under src/; the embedding abstracts
them as function parameters (every theorem below quantifies over them), and
the one helper whose behaviour the spec pins down exactly, a_lift, is
modelled from the spec.
-/

namespace Parla

open Matrix
open scoped Classical

noncomputable section

/-- Euclidean 2-norm of a vector, as computed by la.norm. -/
def nrm {k : ℕ} (v : Fin k → ℝ) : ℝ := Real.sqrt (∑ i, v i ^ 2)

/-! ## PcSS1 (saddle.py lines 92-159) -/

/-- The right-hand side b as received by PcSS1: numpy allows None, a
one-dimensional array of length m, or a two-dimensional array with k
columns. -/
inductive NPb (m : ℕ) where
  | absent
  | oneD (v : Fin m → ℝ)
  | twoD (k : ℕ) (B : Matrix (Fin m) (Fin k) ℝ)

/-- Column count of b (saddle.py line 102): None is replaced by a
one-dimensional zero vector first, so it counts as 1. -/
def NPb.cols {m : ℕ} : NPb m → ℕ
  | NPb.absent => 1
  | NPb.oneD _ => 1
  | NPb.twoD k _ => k

/-- The vector contents of b once the k = 1 guard has passed.  A
two-dimensional b with one column is read off as its single column. -/
def NPb.toVec {m : ℕ} : NPb m → (Fin m → ℝ)
  | NPb.absent => 0
  | NPb.oneD v => v
  | NPb.twoD k B => if h : 0 < k then (fun i => B i ⟨0, h⟩) else 0

/-- Euclidean norm of column j of R, la.norm(R, axis=0) (saddle.py line 114). -/
def nrmCol {n p : ℕ} (R : Matrix (Fin n) (Fin p) ℝ) (j : Fin p) : ℝ :=
  nrm (fun i => R i j)

/-- The column-normalized matrix V = R * sing_vals with
sing_vals = 1/la.norm(R, axis=0) (saddle.py lines 114-115). -/
def pcss1V {n p : ℕ} (R : Matrix (Fin n) (Fin p) ℝ) : Matrix (Fin n) (Fin p) ℝ :=
  fun i j => R i j * (nrmCol R j)⁻¹

/-- The updated singular values sqrt(sing_vals^2 + delta) (saddle.py
lines 118-120, in-place square, add delta, square root). -/
def pcss1S {n p : ℕ} (δ : ℝ) (R : Matrix (Fin n) (Fin p) ℝ) (j : Fin p) : ℝ :=
  Real.sqrt (((nrmCol R j)⁻¹) ^ 2 + δ)

/-- Contents of the array R after PcSS1 runs: when delta > 0 (and R has at
least one column, otherwise line 122 sing_vals[-1] raises IndexError before
any column is rescaled) the code overwrites R in place with
R[:] = V; R /= (sing_vals/sing_vals[-1]) (saddle.py lines 113-122); when
delta = 0 the array is never written. -/
def pcss1finalR {n p : ℕ} (δ : ℝ) (R : Matrix (Fin n) (Fin p) ℝ) :
    Matrix (Fin n) (Fin p) ℝ :=
  if h : 0 < δ ∧ 0 < p then
    fun i j => pcss1V R i j / (pcss1S δ R j / pcss1S δ R ⟨p - 1, Nat.sub_lt h.2 one_pos⟩)
  else R

/-- The preconditioner action mv_pre handed to pcg (saddle.py lines
127-136): M = R R^T on the full-rank path, and R R^T + (I - V V^T) on the
low-rank path.  On the low-rank path the source reads the local variable V,
which is only ever assigned inside the delta > 0 branch (line 115); when
delta = 0 that read raises an unbound-local error, modelled here by none. -/
def pcss1mvPre {n p : ℕ} (δ : ℝ) (R : Matrix (Fin n) (Fin p) ℝ)
    (v : Fin n → ℝ) : Option (Fin n → ℝ) :=
  let Rf := pcss1finalR δ R
  let res := Rf.mulVec (Rfᵀ.mulVec v)
  if p = n then some res
  else if 0 < δ then
    some (res + v - (pcss1V R).mulVec ((pcss1V R)ᵀ.mulVec v))
  else none

/-- Type of the pcg kernel (parla.comps.determiter.pcg, not under src/):
arguments are mv_gram, rhs, mv_pre, iter_lim, tol, x0, result is the final
iterate together with the residual trace.  The preconditioner returns an
Option because applying it can hit the unbound-local error described at
pcss1mvPre; theorems about PcSS1 quantify over this parameter. -/
def PcgFun (n : ℕ) : Type :=
  ((Fin n → ℝ) → (Fin n → ℝ)) → (Fin n → ℝ) → ((Fin n → ℝ) → Option (Fin n → ℝ)) →
    ℕ → ℝ → (Fin n → ℝ) → (Fin n → ℝ) × List ℝ

/-- Outcome of a PcSS1 call.  notImplemented models NotImplementedError
(lines 104, 107); indexError models the IndexError raised by
sing_vals[-1] on an empty sing_vals (line 122, delta > 0 with a
zero-column R); ok carries the returned x, y, residual trace, and the
final contents of the caller-owned array R. -/
inductive P1Out (m n p : ℕ) where
  | notImplemented
  | indexError
  | ok (x : Fin n → ℝ) (y : Fin m → ℝ) (residuals : List ℝ)
      (finalR : Matrix (Fin n) (Fin p) ℝ)

/-- Final contents of R reported by a PcSS1 outcome, when the call returned. -/
def P1Out.finalRof {m n p : ℕ} : P1Out m n p → Option (Matrix (Fin n) (Fin p) ℝ)
  | P1Out.ok _ _ _ fR => some fR
  | _ => none

/-- PcSS1.__call__ (saddle.py lines 98-159).  The pcg kernel is a
parameter.  Guards in source order: multi-column b raises
NotImplementedError (line 104), upper_tri raises NotImplementedError
(line 107); with delta > 0 and an empty R, line 122 raises IndexError.
Then rhs = A^T b - c, x0 = R @ z0 on the full-rank path with a warm start
(zero otherwise, lines 148-152), pcg is run, and y = b - A x (line 156). -/
def PcSS1call {m n p : ℕ} (pcgF : PcgFun n)
    (A : Matrix (Fin m) (Fin n) ℝ) (b : NPb m) (c : Option (Fin n → ℝ))
    (δ tol : ℝ) (iterLim : ℕ) (R : Matrix (Fin n) (Fin p) ℝ)
    (upperTri : Bool) (z0 : Option (Fin p → ℝ)) : P1Out m n p :=
  if b.cols ≠ 1 then P1Out.notImplemented
  else if upperTri then P1Out.notImplemented
  else if 0 < δ ∧ p = 0 then P1Out.indexError
  else
    let b0 := b.toVec
    let Rf := pcss1finalR δ R
    let mvGram : (Fin n → ℝ) → (Fin n → ℝ) := fun v => Aᵀ.mulVec (A.mulVec v) + δ • v
    let rhs := Aᵀ.mulVec b0 - (Option.getD c 0)
    let x0 : Fin n → ℝ :=
      match z0 with
      | none => 0
      | some w => if p = n then Rf.mulVec w else 0
    let res := pcgF mvGram rhs (pcss1mvPre δ R) iterLim tol x0
    P1Out.ok res.1 (b0 - A.mulVec res.1) res.2 Rf

/-! ## PcSS2 (saddle.py lines 162-204) -/

/-- The regime test c is None or la.norm(c) == 0 (saddle.py line 178). -/
def optIsZero {k : ℕ} (v : Option (Fin k → ℝ)) : Prop :=
  match v with
  | none => True
  | some w => nrm w = 0

/-- The x component returned by PcSS2.  The underdetermined branch with
delta = 0 returns np.NaN * np.empty(n), a length-n vector with every entry
NaN (saddle.py line 199); nanVec models that sentinel.  No vector of reals
equals it: in floating point an equation with NaN on either side never
holds. -/
inductive X2Res (n : ℕ) where
  | vec (v : Fin n → ℝ)
  | nanVec

/-- Outcome of a PcSS2 call.  valueError models the ValueError of line 204;
typeErrorNoneB models the crash that follows when b is None on the
overdetermined branch (line 181 concatenates None, or lsqr receives None). -/
inductive P2Out (m n : ℕ) where
  | ok (x : X2Res n) (y : Fin m → ℝ) (errors : List ℝ) (code : ℕ)
  | valueError
  | typeErrorNoneB

/-- PcSS2.__call__ (saddle.py lines 172-204).  The call to a_lift_precond
and the two lsqr invocations live in modules not under src/; they are
abstracted by the parameters Mfwd (the forward preconditioner action
M_fwd), solO/errsO/codeO (the lsqr solution, residual trace and stop code
for the overdetermined call of line 182) and solU0/solU1/errsU/codeU (the
same for the underdetermined call of line 192, whose solution has length m
when delta = 0 and m + n when delta > 0 because A_pc is the lifted
matrix).  Every theorem below quantifies over these parameters.
Branching follows lines 178, 189, 204: overdetermined when c is zero or
absent (x = M_fwd(sol), y = b[:m] - A x, line 184-185), underdetermined
when b is zero or absent (y is the lsqr solution, truncated to its first m
entries when delta > 0, then x = (A^T y - c)/delta, else x is the NaN
sentinel, lines 194-199), and ValueError when both are nonzero. -/
def PcSS2call {m n r : ℕ}
    (Mfwd : (Fin r → ℝ) → (Fin n → ℝ))
    (solO : Fin r → ℝ) (errsO : List ℝ) (codeO : ℕ)
    (solU0 : Fin m → ℝ) (solU1 : Fin (m + n) → ℝ) (errsU : List ℝ) (codeU : ℕ)
    (A : Matrix (Fin m) (Fin n) ℝ) (b : Option (Fin m → ℝ))
    (c : Option (Fin n → ℝ)) (δ : ℝ) : P2Out m n :=
  if optIsZero c then
    match b with
    | none => P2Out.typeErrorNoneB
    | some bv =>
      let x := Mfwd solO
      P2Out.ok (X2Res.vec x) (bv - A.mulVec x) errsO codeO
  else if optIsZero b then
    let y : Fin m → ℝ :=
      if 0 < δ then (fun i => solU1 (Fin.castAdd n i)) else solU0
    let x : X2Res n :=
      if 0 < δ then X2Res.vec (fun j => ((Aᵀ.mulVec y) j - (Option.getD c 0) j) / δ)
      else X2Res.nanVec
    P2Out.ok x y errsU codeU
  else P2Out.valueError

/-! ## PcSS3 (saddle.py lines 207-386) -/

/-- The smallest admissible tolerance MIN_TOL = 10*np.finfo(float).eps
(saddle.py line 212); eps is 2^(-52). -/
def MIN_TOL : ℝ := 10 / 2 ^ 52

/-- Effective tolerance after the clamp of lines 231-236. -/
def p3effTol (tol : ℝ) : ℝ := if tol < MIN_TOL then MIN_TOL else tol

/-- Effective iteration limit after the clamp of lines 237-243:
max_iter = 5*n. -/
def p3effIterLim (iterLim n : ℕ) : ℕ := if 5 * n < iterLim then 5 * n else iterLim

/-- Warnings emitted by PcSS3, each naming the substituted value
(saddle.py lines 232-235 and 239-242). -/
inductive P3Warn where
  | tolClamped (newTol : ℝ)
  | iterClamped (newLim : ℕ)
deriving DecidableEq

/-- The warnings a PcSS3 call emits for given tol, iter_lim and n. -/
def p3warnings (tol : ℝ) (iterLim n : ℕ) : List P3Warn :=
  (if tol < MIN_TOL then [P3Warn.tolClamped MIN_TOL] else []) ++
    (if 5 * n < iterLim then [P3Warn.iterClamped (5 * n)] else [])

/-- Loop state of PcSS3 (the mutable locals of saddle.py lines 277-290):
the preconditioned iterate z, the iterate x, the residual y, the
normal-equation residual rhs, the search direction dz = M^T rhs, the last
error value err = la.norm(dz), the error-trace entries written so far, and
the iteration counter it. -/
@[ext]
structure P3State (m n r : ℕ) where
  z : Fin r → ℝ
  x : Fin n → ℝ
  y : Fin m → ℝ
  rhs : Fin n → ℝ
  dz : Fin r → ℝ
  err : ℝ
  errors : List ℝ
  it : ℕ

/-- The line-search step size (saddle.py lines 291-307).  In exact
arithmetic the main branch equals -(A dx)·(A x - b)/den^2 with
den = la.norm(A dx); when den = 0 the code falls back to x·dx/la.norm(dx)^2
when dx is nonzero and to np.NaN otherwise — none models the NaN. -/
def stepSize {m n : ℕ} (A : Matrix (Fin m) (Fin n) ℝ) (b : Fin m → ℝ)
    (x dx : Fin n → ℝ) : Option ℝ :=
  let adx := A.mulVec dx
  let den := nrm adx
  if 0 < den then some (-((den⁻¹ • adx) ⬝ᵥ (A.mulVec x - b)) / den)
  else if 0 < nrm dx then some ((x ⬝ᵥ dx) / nrm dx ^ 2)
  else none

/-- The consistency-style metric of saddle.py lines 327 and 374:
metric1 = la.norm(y) / (la.norm(b) + sqrt(n) * la.norm(z)). -/
def p3metric1 {m n r : ℕ} (b : Fin m → ℝ) (s : P3State m n r) : ℝ :=
  nrm s.y / (nrm b + Real.sqrt n * nrm s.z)

/-- The normal-equation metric of saddle.py lines 328 and 375:
metric2 = err / (sqrt(n) * la.norm(y)). -/
def p3metric2 {m n r : ℕ} (s : P3State m n r) : ℝ :=
  s.err / (Real.sqrt n * nrm s.y)

/-- error_func (saddle.py lines 329-332): min of the two metrics when
allow_consistent_term is set, metric2 alone otherwise. -/
def p3errFunc (act : Bool) (m1 m2 : ℝ) : ℝ :=
  if act then min m1 m2 else m2

/-- One full iteration of the main loop (saddle.py lines 350-375), given
the already-checked step size a: dx = alpha * (M dz), dz and x and z are
updated, y -= A dx, and rhs is either refreshed from scratch (every 50th
iteration, line 362-366) or updated incrementally (line 368); the new
search direction is dz = M^T rhs and the new error is appended. -/
def p3body {m n r : ℕ} (A : Matrix (Fin m) (Fin n) ℝ)
    (M : Matrix (Fin n) (Fin r) ℝ) (b : Fin m → ℝ) (a : ℝ)
    (s : P3State m n r) : P3State m n r :=
  let dx := a • M.mulVec s.dz
  let dzS := a • s.dz
  let x2 := s.x + dx
  let z2 := s.z + dzS
  let adx := A.mulVec dx
  let y2 := s.y - adx
  let drhs := Aᵀ.mulVec adx
  let rhs2 := if s.it % 50 = 0 then Aᵀ.mulVec (b - A.mulVec x2) else s.rhs - drhs
  let dz2 := Mᵀ.mulVec rhs2
  let err2 := nrm dz2
  { z := z2, x := x2, y := y2, rhs := rhs2, dz := dz2, err := err2,
    errors := s.errors ++ [err2], it := s.it + 1 }

/-- The main loop (saddle.py lines 335-375).  The while guard is
it < iter_lim + 1 together with error_func(metric1, metric2) > tol; fuel
counts the remaining admissible iterations.  A NaN or zero step size
records the current error once more and breaks (lines 352-354). -/
def p3loop {m n r : ℕ} (A : Matrix (Fin m) (Fin n) ℝ)
    (M : Matrix (Fin n) (Fin r) ℝ) (b : Fin m → ℝ) (act : Bool) (tol : ℝ) :
    ℕ → P3State m n r → P3State m n r
  | 0, s => s
  | fuel + 1, s =>
    if tol < p3errFunc act (p3metric1 b s) (p3metric2 s) then
      match stepSize A b s.x (M.mulVec s.dz) with
      | none => { s with errors := s.errors ++ [s.err] }
      | some a =>
        if a = 0 then { s with errors := s.errors ++ [s.err] }
        else p3loop A M b act tol fuel (p3body A M b a s)
    else s

/-- The pre-loop error computation (saddle.py lines 322-325):
dz = M^T rhs, err = la.norm(dz), errors[0] = err. -/
def p3preCheck {m n r : ℕ} (M : Matrix (Fin n) (Fin r) ℝ)
    (s : P3State m n r) : P3State m n r :=
  let dz2 := Mᵀ.mulVec s.rhs
  let err2 := nrm dz2
  { s with dz := dz2, err := err2, errors := [err2] }

/-- Initialization (saddle.py lines 277-325).  The base state has x = 0,
y = b, rhs = A^T b.  With a nonzero warm start z0 the code takes one
line-search step along M z0 (lines 310-320); when that step size is NaN
the multiplications dx *= alpha poison the whole run with NaN — modelled
by none.  The pre-loop check then fills dz, err and errors[0]. -/
def p3init {m n r : ℕ} (A : Matrix (Fin m) (Fin n) ℝ)
    (M : Matrix (Fin n) (Fin r) ℝ) (b : Fin m → ℝ)
    (z0 : Option (Fin r → ℝ)) : Option (P3State m n r) :=
  let s0 : P3State m n r :=
    { z := 0, x := 0, y := b, rhs := Aᵀ.mulVec b, dz := 0, err := 0,
      errors := [], it := 1 }
  match z0 with
  | none => some (p3preCheck M s0)
  | some w =>
    if 0 < nrm w then
      let dx0 := M.mulVec w
      match stepSize A b 0 dx0 with
      | none => none
      | some a =>
        let dx := a • dx0
        let adx := A.mulVec dx
        some (p3preCheck M
          { z := a • w, x := dx, y := b - adx,
            rhs := Aᵀ.mulVec b - Aᵀ.mulVec adx, dz := 0, err := 0,
            errors := [], it := 1 })
    else some (p3preCheck M s0)

/-- The state at loop exit, with clamped tolerance and iteration limit. -/
def pcss3final {m n r : ℕ} (A : Matrix (Fin m) (Fin n) ℝ)
    (M : Matrix (Fin n) (Fin r) ℝ) (b : Fin m → ℝ) (act : Bool)
    (tol : ℝ) (iterLim : ℕ) (z0 : Option (Fin r → ℝ)) :
    Option (P3State m n r) :=
  (p3init A M b z0).map (p3loop A M b act (p3effTol tol) (p3effIterLim iterLim n))

/-- Termination code (saddle.py lines 378-383). -/
def p3code (act : Bool) (tol m1 m2 : ℝ) : ℕ :=
  if act = true ∧ m1 ≤ tol then 1 else if m2 ≤ tol then 2 else 7

/-- Outcome of a PcSS3 call.  notImplemented covers the guards of lines
222-227 (c given, delta > 0, upper_tri); nanPoisoned models the run whose
warm-start step size is NaN (every subsequent array is NaN); ok carries
the returned tuple, with y = b - A x recomputed at return (line 385). -/
inductive P3Out (m n : ℕ) where
  | notImplemented
  | nanPoisoned
  | ok (x : Fin n → ℝ) (y : Fin m → ℝ) (errors : List ℝ) (code : ℕ)

/-- Termination code of a PcSS3 outcome, when the call returned. -/
def P3Out.codeOf {m n : ℕ} : P3Out m n → Option ℕ
  | P3Out.ok _ _ _ k => some k
  | _ => none

/-- PcSS3.__call__ (saddle.py lines 217-386), with M = R (line 229). -/
def pcss3 {m n r : ℕ} (A : Matrix (Fin m) (Fin n) ℝ) (b : Fin m → ℝ)
    (c : Option (Fin n → ℝ)) (δ tol : ℝ) (iterLim : ℕ)
    (M : Matrix (Fin n) (Fin r) ℝ) (upperTri : Bool)
    (z0 : Option (Fin r → ℝ)) (act : Bool) : P3Out m n :=
  if c ≠ none then P3Out.notImplemented
  else if 0 < δ then P3Out.notImplemented
  else if upperTri then P3Out.notImplemented
  else
    match pcss3final A M b act tol iterLim z0 with
    | none => P3Out.nanPoisoned
    | some s =>
      P3Out.ok s.x (b - A.mulVec s.x) s.errors
        (p3code act (p3effTol tol) (p3metric1 b s) (p3metric2 s))

/-! ## SPS1 and SPS2 (saddlesys.py lines 85-273)

The sketching operator S and the factorization M, U, sigma, Vh of the
sketch (svd_right_precond, a module not under src/) are abstracted as
parameters; theorems quantify over them.  Only the presolve logic and the
hand-off to the iterative solver are embedded, which is exactly what the
claims about the drivers concern. -/

/-- Modelled from the spec: a_lift (parla.comps.preconditioning, not under
src/) returns the row-stack [A; s * I] of A over a scaled identity; the
spec states it is the identity map when delta = 0, and the drivers only
apply it on their delta > 0 paths in the form used here. -/
def aLift {m n : ℕ} (A : Matrix (Fin m) (Fin n) ℝ) (s : ℝ) :
    Matrix (Fin (m + n)) (Fin n) ℝ :=
  fun i => Fin.addCases (fun i2 => A i2) (fun j2 => fun j => if j2 = j then s else 0) i

/-- The normal-equation right-hand side rhs = A^T b - c of the SPS1
presolve (saddlesys.py lines 150-152). -/
def sps1rhs {m n : ℕ} (A : Matrix (Fin m) (Fin n) ℝ) (b0 : Fin m → ℝ)
    (c : Option (Fin n → ℝ)) : Fin n → ℝ :=
  Aᵀ.mulVec b0 - Option.getD c 0

/-- The presolve candidate in preconditioned coordinates,
z_ske = (Vh @ rhs) / sigma (saddlesys.py line 153). -/
def sps1zske {m n r : ℕ} (Vh : Matrix (Fin r) (Fin n) ℝ) (sigma : Fin r → ℝ)
    (A : Matrix (Fin m) (Fin n) ℝ) (b0 : Fin m → ℝ)
    (c : Option (Fin n → ℝ)) : Fin r → ℝ :=
  fun j => (Vh.mulVec (sps1rhs A b0 c)) j / sigma j

/-- The preconditioned right-hand side rhs_pc = M^T rhs (line 155). -/
def sps1rhspc {m n r : ℕ} (M : Matrix (Fin n) (Fin r) ℝ)
    (A : Matrix (Fin m) (Fin n) ℝ) (b0 : Fin m → ℝ)
    (c : Option (Fin n → ℝ)) : Fin r → ℝ :=
  Mᵀ.mulVec (sps1rhs A b0 c)

/-- The preconditioned normal-equation value of the candidate,
lhs_ske_pc = M^T (A^T (A x_ske) + delta * x_ske) with x_ske = M z_ske
(saddlesys.py lines 154-156). -/
def sps1lhspc {m n r : ℕ} (M : Matrix (Fin n) (Fin r) ℝ)
    (Vh : Matrix (Fin r) (Fin n) ℝ) (sigma : Fin r → ℝ)
    (A : Matrix (Fin m) (Fin n) ℝ) (b0 : Fin m → ℝ)
    (c : Option (Fin n → ℝ)) (δ : ℝ) : Fin r → ℝ :=
  let xske := M.mulVec (sps1zske Vh sigma A b0 c)
  Mᵀ.mulVec (Aᵀ.mulVec (A.mulVec xske) + δ • xske)

/-- The SPS1 presolve decision (saddlesys.py lines 157-158): the candidate
is discarded, None is passed as the warm start, exactly when the
preconditioned normal-equation residual of the candidate is at least the
norm of the preconditioned right-hand side. -/
def sps1presolve {m n r : ℕ} (M : Matrix (Fin n) (Fin r) ℝ)
    (Vh : Matrix (Fin r) (Fin n) ℝ) (sigma : Fin r → ℝ)
    (A : Matrix (Fin m) (Fin n) ℝ) (b0 : Fin m → ℝ)
    (c : Option (Fin n → ℝ)) (δ : ℝ) : Option (Fin r → ℝ) :=
  if nrm (sps1rhspc M A b0 c) ≤ nrm (sps1lhspc M Vh sigma A b0 c δ - sps1rhspc M A b0 c)
  then none
  else some (sps1zske Vh sigma A b0 c)

/-- Type of the iterative solver as invoked by SPS1 (saddlesys.py line
163): arguments A, b, c, delta, tol, iter_lim, M, upper_tri, z0.  The
output type is abstract. -/
def Sps1Solver (m n r : ℕ) (O : Type) : Type :=
  Matrix (Fin m) (Fin n) ℝ → (Fin m → ℝ) → Option (Fin n → ℝ) → ℝ → ℝ → ℕ →
    Matrix (Fin n) (Fin r) ℝ → Bool → Option (Fin r → ℝ) → O

/-- SPS1.__call__ after sketching and factoring (saddlesys.py lines
119-173): b is replaced by zeros when None (line 126), the presolve
candidate is computed and possibly discarded, and the iterative solver is
invoked with M as preconditioner, upper_tri False, and the (possibly
None) candidate as warm start; its result is returned. -/
def SPS1call {m n r : ℕ} {O : Type} (solver : Sps1Solver m n r O)
    (A : Matrix (Fin m) (Fin n) ℝ) (b : Option (Fin m → ℝ))
    (c : Option (Fin n → ℝ)) (δ tol : ℝ) (iterLim : ℕ)
    (M : Matrix (Fin n) (Fin r) ℝ) (Vh : Matrix (Fin r) (Fin n) ℝ)
    (sigma : Fin r → ℝ) : O :=
  let b0 := Option.getD b 0
  solver A b0 c δ tol iterLim M false (sps1presolve M Vh sigma A b0 c δ)

/-- The converted right-hand side of SPS2 when delta = 0 (saddlesys.py
lines 237-243): b_aug = b.copy(), and when c is nonzero
b_aug -= S^T v[:d] with v = U @ ((1/sigma) * (Vh @ c)); for delta = 0 the
matrix U has d rows, so v[:d] is all of v. -/
def sps2baug0 {m n d r : ℕ} (S : Matrix (Fin d) (Fin m) ℝ)
    (U : Matrix (Fin d) (Fin r) ℝ) (sigma : Fin r → ℝ)
    (Vh : Matrix (Fin r) (Fin n) ℝ) (b0 : Fin m → ℝ)
    (c : Option (Fin n → ℝ)) : Fin m → ℝ :=
  match c with
  | none => b0
  | some cv =>
    if 0 < nrm cv then
      b0 - Sᵀ.mulVec (U.mulVec (fun j => (sigma j)⁻¹ * (Vh.mulVec cv) j))
    else b0

/-- The converted right-hand side of SPS2 when delta > 0 (saddlesys.py
lines 237-243): b_aug = concatenate(b, zeros(n)), and when c is nonzero
b_aug[:m] -= S^T v[:d] and b_aug[m:] -= v[d:], where v = U @ ((1/sigma) *
(Vh @ c)) and U has d + n rows. -/
def sps2baug1 {m n d r : ℕ} (S : Matrix (Fin d) (Fin m) ℝ)
    (U : Matrix (Fin (d + n)) (Fin r) ℝ) (sigma : Fin r → ℝ)
    (Vh : Matrix (Fin r) (Fin n) ℝ) (b0 : Fin m → ℝ)
    (c : Option (Fin n → ℝ)) : Fin (m + n) → ℝ :=
  match c with
  | none => Fin.append b0 0
  | some cv =>
    if 0 < nrm cv then
      let v := U.mulVec (fun j => (sigma j)⁻¹ * (Vh.mulVec cv) j)
      Fin.append (b0 - Sᵀ.mulVec (fun i => v (Fin.castAdd n i)))
        (0 - fun j => v (Fin.natAdd d j))
    else Fin.append b0 0

/-- The SPS2 presolve candidate when delta = 0 (saddlesys.py line 248):
z_ske = U[:d, :].T @ (S @ b_aug[:m]); with d rows, U[:d] is U and
b_aug[:m] is b_aug. -/
def sps2zske0 {m n d r : ℕ} (S : Matrix (Fin d) (Fin m) ℝ)
    (U : Matrix (Fin d) (Fin r) ℝ) (sigma : Fin r → ℝ)
    (Vh : Matrix (Fin r) (Fin n) ℝ) (b0 : Fin m → ℝ)
    (c : Option (Fin n → ℝ)) : Fin r → ℝ :=
  Uᵀ.mulVec (S.mulVec (sps2baug0 S U sigma Vh b0 c))

/-- The SPS2 presolve candidate when delta > 0 (saddlesys.py lines
248-250): z_ske = U[:d, :].T @ (S @ b_aug[:m]) + U[d:, :].T @ b_aug[m:]. -/
def sps2zske1 {m n d r : ℕ} (S : Matrix (Fin d) (Fin m) ℝ)
    (U : Matrix (Fin (d + n)) (Fin r) ℝ) (sigma : Fin r → ℝ)
    (Vh : Matrix (Fin r) (Fin n) ℝ) (b0 : Fin m → ℝ)
    (c : Option (Fin n → ℝ)) : Fin r → ℝ :=
  let baug := sps2baug1 S U sigma Vh b0 c
  (U.submatrix (Fin.castAdd n) id)ᵀ.mulVec
      (S.mulVec (fun i => baug (Fin.castAdd n i))) +
    (U.submatrix (Fin.natAdd d) id)ᵀ.mulVec (fun j => baug (Fin.natAdd m j))

/-- The SPS2 presolve decision when delta = 0 (saddlesys.py lines
251-253): the candidate is discarded exactly when its least-squares
residual norm is at least the norm of the converted right-hand side. -/
def sps2presolve0 {m n d r : ℕ} (A : Matrix (Fin m) (Fin n) ℝ)
    (S : Matrix (Fin d) (Fin m) ℝ) (U : Matrix (Fin d) (Fin r) ℝ)
    (sigma : Fin r → ℝ) (Vh : Matrix (Fin r) (Fin n) ℝ)
    (M : Matrix (Fin n) (Fin r) ℝ) (b0 : Fin m → ℝ)
    (c : Option (Fin n → ℝ)) : Option (Fin r → ℝ) :=
  let baug := sps2baug0 S U sigma Vh b0 c
  let z := sps2zske0 S U sigma Vh b0 c
  if nrm baug ≤ nrm (baug - A.mulVec (M.mulVec z)) then none else some z

/-- The SPS2 presolve decision when delta > 0, with the lifted matrix
A_aug = [A; sqrt(delta) I] (saddlesys.py lines 237, 251-253). -/
def sps2presolve1 {m n d r : ℕ} (A : Matrix (Fin m) (Fin n) ℝ) (δ : ℝ)
    (S : Matrix (Fin d) (Fin m) ℝ) (U : Matrix (Fin (d + n)) (Fin r) ℝ)
    (sigma : Fin r → ℝ) (Vh : Matrix (Fin r) (Fin n) ℝ)
    (M : Matrix (Fin n) (Fin r) ℝ) (b0 : Fin m → ℝ)
    (c : Option (Fin n → ℝ)) : Option (Fin r → ℝ) :=
  let baug := sps2baug1 S U sigma Vh b0 c
  let z := sps2zske1 S U sigma Vh b0 c
  if nrm baug ≤ nrm (baug - (aLift A (Real.sqrt δ)).mulVec (M.mulVec z))
  then none else some z

/-- Type of the iterative solver as invoked by SPS2 (saddlesys.py lines
258-259): it receives the converted system, whose row count depends on
delta, so the row count is an argument. -/
def Sps2Solver (n r : ℕ) (O : Type) : Type :=
  (mm : ℕ) → Matrix (Fin mm) (Fin n) ℝ → (Fin mm → ℝ) → Option (Fin n → ℝ) →
    ℝ → ℝ → ℕ → Matrix (Fin n) (Fin r) ℝ → Bool → Option (Fin r → ℝ) → O

/-- SPS2.__call__ after sketching and factoring (saddlesys.py lines
211-263): the saddle system is converted to overdetermined least squares
(A_aug, b_aug), the presolve candidate is computed and possibly
discarded, and the iterative solver is invoked on the converted system
with c = None, delta = 0, M as preconditioner, upper_tri False, and the
(possibly None) candidate as warm start. -/
def SPS2call {m n d r : ℕ} {O : Type} (solver : Sps2Solver n r O)
    (A : Matrix (Fin m) (Fin n) ℝ) (b : Option (Fin m → ℝ))
    (c : Option (Fin n → ℝ)) (δ tol : ℝ) (iterLim : ℕ)
    (S : Matrix (Fin d) (Fin m) ℝ) (U0 : Matrix (Fin d) (Fin r) ℝ)
    (U1 : Matrix (Fin (d + n)) (Fin r) ℝ) (sigma : Fin r → ℝ)
    (Vh : Matrix (Fin r) (Fin n) ℝ) (M : Matrix (Fin n) (Fin r) ℝ) : O :=
  let b0 := Option.getD b 0
  if 0 < δ then
    solver (m + n) (aLift A (Real.sqrt δ)) (sps2baug1 S U1 sigma Vh b0 c)
      none 0 tol iterLim M false (sps2presolve1 A δ S U1 sigma Vh M b0 c)
  else
    solver m A (sps2baug0 S U0 sigma Vh b0 c)
      none 0 tol iterLim M false (sps2presolve0 A S U0 sigma Vh M b0 c)

/-! ## Claim-level predicates and concrete inputs -/

/-- The consistency property y = b - A x claimed for every returned pair.
For a result whose x is the all-NaN sentinel the floating-point equation
y = b - A x is false (b - A x is a NaN vector and no NaN comparison
holds), so that case is False; outcomes that raise return no pair, so the
property is vacuous for them. -/
def p2consistent {m n : ℕ} (A : Matrix (Fin m) (Fin n) ℝ) (b0 : Fin m → ℝ) :
    P2Out m n → Prop
  | P2Out.ok (X2Res.vec v) y _ _ => y = b0 - A.mulVec v
  | P2Out.ok X2Res.nanVec _ _ _ => False
  | _ => True

/-- Invariant of the PcSS3 loop state: the iterate x is the image under M
of its preconditioned twin z (saddle.py invariant comment lines 338-349),
and y is the residual b - A x. -/
def p3inv {m n r : ℕ} (A : Matrix (Fin m) (Fin n) ℝ)
    (M : Matrix (Fin n) (Fin r) ℝ) (b : Fin m → ℝ) (s : P3State m n r) : Prop :=
  s.x = M.mulVec s.z ∧ s.y = b - A.mulVec s.x

/-- Concrete 2-by-1 data matrix used to separate the two metric1 readings. -/
def exA3 : Matrix (Fin 2) (Fin 1) ℝ := !![1; 0]

/-- Concrete right-hand side for exA3, chosen so the residual is nonzero. -/
def exb3 : Fin 2 → ℝ := ![1, 1]

/-- Concrete 1-by-1 preconditioner with a nontrivial scale. -/
def exM3 : Matrix (Fin 1) (Fin 1) ℝ := !![2]

/-- The pre-loop state PcSS3 reaches on (exA3, exb3, exM3) with warm start
z0 = [1]: the init line search gives alpha = 1/2, so x = [1], z = [1/2],
y = (0, 1), rhs = 0, dz = 0, err = 0. -/
def exS3 : P3State 2 1 1 :=
  { z := ![1 / 2], x := ![1], y := ![0, 1], rhs := ![0], dz := ![0],
    err := 0, errors := [0], it := 1 }

/-- Concrete 1-by-1 data matrix for the termination-code counterexample. -/
def exA4 : Matrix (Fin 1) (Fin 1) ℝ := !![3]

/-- Concrete right-hand side for exA4. -/
def exb4 : Fin 1 → ℝ := ![1]

/-- Concrete identity preconditioner for exA4. -/
def exM4 : Matrix (Fin 1) (Fin 1) ℝ := !![1]

/-- The pre-loop state PcSS3 reaches on (exA4, exb4, exM4) with no warm
start: x = 0, y = b, rhs = A^T b = [3], dz = [3], err = 3. -/
def exS4 : P3State 1 1 1 :=
  { z := 0, x := 0, y := ![1], rhs := ![3], dz := ![3],
    err := 3, errors := [3], it := 1 }

/-- The pre-loop state PcSS3 reaches on the 1-by-1 identity data with
b = [1] and no warm start, used to exercise consistency at return. -/
def exSc1 : P3State 1 1 1 :=
  p3preCheck (!![(1 : ℝ)])
    { z := 0, x := 0, y := ![1], rhs := (!![(1 : ℝ)])ᵀ.mulVec ![1], dz := 0,
      err := 0, errors := [], it := 1 }

/-! ## Helper lemmas -/

theorem nrm_zero {k : ℕ} : nrm (0 : Fin k → ℝ) = 0 := by
  simp [nrm]

theorem nrm_nonneg {k : ℕ} (v : Fin k → ℝ) : 0 ≤ nrm v :=
  Real.sqrt_nonneg _

theorem nrm_single (a : ℝ) (h : 0 ≤ a) : nrm ![a] = a := by
  simp [nrm, Fin.sum_univ_one]
  exact Real.sqrt_sq h

theorem nrm_one_single : nrm (![1] : Fin 1 → ℝ) = 1 :=
  nrm_single 1 zero_le_one

/-! ## C2: PcSS2 regime exclusivity -/

/-- C2: for every input shape, calling PcSS2 with both b and c nonzero
(neither None nor of zero norm) raises ValueError and returns no solution
(saddle.py line 204). -/
theorem c2_regime_exclusivity {m n r : ℕ}
    (Mfwd : (Fin r → ℝ) → (Fin n → ℝ)) (solO : Fin r → ℝ) (errsO : List ℝ)
    (codeO : ℕ) (solU0 : Fin m → ℝ) (solU1 : Fin (m + n) → ℝ)
    (errsU : List ℝ) (codeU : ℕ) (A : Matrix (Fin m) (Fin n) ℝ)
    (bv : Fin m → ℝ) (cv : Fin n → ℝ) (δ : ℝ)
    (hb : nrm bv ≠ 0) (hc : nrm cv ≠ 0) :
    PcSS2call Mfwd solO errsO codeO solU0 solU1 errsU codeU A
      (some bv) (some cv) δ = P2Out.valueError := by
  unfold PcSS2call
  rw [if_neg (show ¬ optIsZero (some cv) from hc),
    if_neg (show ¬ optIsZero (some bv) from hb)]

/-- Witness for C2 at a concrete input: b = [1], c = [1] are both of
nonzero norm and the call returns the ValueError outcome. -/
theorem c2_witness :
    nrm (![1] : Fin 1 → ℝ) ≠ 0 ∧
      PcSS2call (fun v : Fin 1 → ℝ => v) 0 [] 0 0 0 [] 0 (!![(1 : ℝ)])
        (some ![1]) (some ![1]) 0 = P2Out.valueError := by
  have h : nrm (![1] : Fin 1 → ℝ) ≠ 0 := by
    rw [nrm_one_single]; norm_num
  exact ⟨h, c2_regime_exclusivity _ _ _ _ _ _ _ _ _ _ _ _ h h⟩

/-! ## C9: PcSS2 underdetermined recovery of x -/

/-- C9: in the underdetermined regime of PcSS2 (b zero or absent, c
nonzero), the returned x is (A^T y - c)/delta when delta > 0, where y is
the returned vector (the lsqr solution truncated to its first m entries),
and when delta = 0 the returned x is the length-n all-NaN sentinel
(saddle.py lines 189-201). -/
theorem c9_underdetermined_recovery {m n r : ℕ}
    (Mfwd : (Fin r → ℝ) → (Fin n → ℝ)) (solO : Fin r → ℝ) (errsO : List ℝ)
    (codeO : ℕ) (solU0 : Fin m → ℝ) (solU1 : Fin (m + n) → ℝ)
    (errsU : List ℝ) (codeU : ℕ) (A : Matrix (Fin m) (Fin n) ℝ)
    (b : Option (Fin m → ℝ)) (cv : Fin n → ℝ) (δ : ℝ)
    (hb : optIsZero b) (hc : nrm cv ≠ 0) :
    (0 < δ →
      PcSS2call Mfwd solO errsO codeO solU0 solU1 errsU codeU A b (some cv) δ =
        P2Out.ok
          (X2Res.vec (fun j =>
            ((Aᵀ.mulVec (fun i => solU1 (Fin.castAdd n i))) j - cv j) / δ))
          (fun i => solU1 (Fin.castAdd n i)) errsU codeU) ∧
    (δ = 0 →
      PcSS2call Mfwd solO errsO codeO solU0 solU1 errsU codeU A b (some cv) δ =
        P2Out.ok X2Res.nanVec solU0 errsU codeU) := by
  unfold PcSS2call
  rw [if_neg (show ¬ optIsZero (some cv) from hc), if_pos hb]
  constructor
  · intro hδ
    simp only [if_pos hδ, Option.getD_some]
  · intro hδ
    subst hδ
    simp only [lt_irrefl, if_neg, ite_false]

/-- Witness for C9 at a concrete input: with b absent, c = [1] nonzero,
and the abstracted lsqr solution [5, 6], the delta = 1 call returns
x = (A^T y - c)/1 with y = [5], and the delta = 0 call returns the NaN
sentinel. -/
theorem c9_witness :
    (PcSS2call (fun v : Fin 1 → ℝ => v) 0 [] 0 ![9] ![5, 6] [1] 2
        (!![(1 : ℝ)]) none (some ![1]) 1 =
      P2Out.ok
        (X2Res.vec (fun j =>
          (((!![(1 : ℝ)])ᵀ.mulVec
              (fun i => (![5, 6] : Fin (1 + 1) → ℝ) (Fin.castAdd 1 i))) j -
            (![1] : Fin 1 → ℝ) j) / 1))
        (fun i => (![5, 6] : Fin (1 + 1) → ℝ) (Fin.castAdd 1 i)) [1] 2) ∧
    (PcSS2call (fun v : Fin 1 → ℝ => v) 0 [] 0 ![9] ![5, 6] [1] 2
        (!![(1 : ℝ)]) none (some ![1]) 0 =
      P2Out.ok X2Res.nanVec ![9] [1] 2) := by
  have hc : nrm (![1] : Fin 1 → ℝ) ≠ 0 := by
    rw [nrm_one_single]; norm_num
  exact
    ⟨(c9_underdetermined_recovery (fun v : Fin 1 → ℝ => v) 0 [] 0 ![9] ![5, 6]
        [1] 2 (!![(1 : ℝ)]) none ![1] 1 trivial hc).1 one_pos,
      (c9_underdetermined_recovery (fun v : Fin 1 → ℝ => v) 0 [] 0 ![9] ![5, 6]
        [1] 2 (!![(1 : ℝ)]) none ![1] 0 trivial hc).2 rfl⟩

/-! ## C6: fail-fast NotImplemented guards -/

/-- C6: unsupported configurations fail with NotImplementedError before
any solve computation: PcSS1 for a multi-column b (saddle.py lines
102-104) or for upper_tri (line 107); PcSS3 for a nonzero c, a nonzero
(positive) delta, or upper_tri (lines 222-227).  No solution is computed
on these paths. -/
theorem c6_notimplemented_guards :
    (∀ (m n p k : ℕ) (pcgF : PcgFun n) (A : Matrix (Fin m) (Fin n) ℝ)
        (B : Matrix (Fin m) (Fin k) ℝ) (c : Option (Fin n → ℝ)) (δ tol : ℝ)
        (il : ℕ) (R : Matrix (Fin n) (Fin p) ℝ) (ut : Bool)
        (z0 : Option (Fin p → ℝ)), 2 ≤ k →
        PcSS1call pcgF A (NPb.twoD k B) c δ tol il R ut z0 =
          P1Out.notImplemented) ∧
    (∀ (m n p : ℕ) (pcgF : PcgFun n) (A : Matrix (Fin m) (Fin n) ℝ)
        (b : NPb m) (c : Option (Fin n → ℝ)) (δ tol : ℝ) (il : ℕ)
        (R : Matrix (Fin n) (Fin p) ℝ) (z0 : Option (Fin p → ℝ)),
        PcSS1call pcgF A b c δ tol il R true z0 = P1Out.notImplemented) ∧
    (∀ (m n r : ℕ) (A : Matrix (Fin m) (Fin n) ℝ) (b : Fin m → ℝ)
        (cv : Fin n → ℝ) (δ tol : ℝ) (il : ℕ) (M : Matrix (Fin n) (Fin r) ℝ)
        (ut : Bool) (z0 : Option (Fin r → ℝ)) (act : Bool), cv ≠ 0 →
        pcss3 A b (some cv) δ tol il M ut z0 act = P3Out.notImplemented) ∧
    (∀ (m n r : ℕ) (A : Matrix (Fin m) (Fin n) ℝ) (b : Fin m → ℝ)
        (c : Option (Fin n → ℝ)) (δ tol : ℝ) (il : ℕ)
        (M : Matrix (Fin n) (Fin r) ℝ) (ut : Bool) (z0 : Option (Fin r → ℝ))
        (act : Bool), 0 < δ →
        pcss3 A b c δ tol il M ut z0 act = P3Out.notImplemented) ∧
    (∀ (m n r : ℕ) (A : Matrix (Fin m) (Fin n) ℝ) (b : Fin m → ℝ)
        (c : Option (Fin n → ℝ)) (δ tol : ℝ) (il : ℕ)
        (M : Matrix (Fin n) (Fin r) ℝ) (z0 : Option (Fin r → ℝ)) (act : Bool),
        pcss3 A b c δ tol il M true z0 act = P3Out.notImplemented) := by
  refine ⟨?_, ?_, ?_, ?_, ?_⟩
  · intro m n p k pcgF A B c δ tol il R ut z0 hk
    unfold PcSS1call
    rw [if_pos (show (NPb.twoD k B).cols ≠ 1 by simp [NPb.cols]; omega)]
  · intro m n p pcgF A b c δ tol il R z0
    unfold PcSS1call
    by_cases h : b.cols ≠ 1
    · rw [if_pos h]
    · rw [if_neg h, if_pos rfl]
  · intro m n r A b cv δ tol il M ut z0 act _
    unfold pcss3
    rw [if_pos (show (some cv ≠ none) by simp)]
  · intro m n r A b c δ tol il M ut z0 act hδ
    unfold pcss3
    by_cases h : c ≠ none
    · rw [if_pos h]
    · rw [if_neg h, if_pos hδ]
  · intro m n r A b c δ tol il M z0 act
    unfold pcss3
    by_cases h : c ≠ none
    · rw [if_pos h]
    · rw [if_neg h]
      by_cases h2 : 0 < δ
      · rw [if_pos h2]
      · rw [if_neg h2, if_pos rfl]

/-- Witness for C6 at concrete inputs: a two-column b, upper_tri = True,
c = [1], and delta = 1 each produce the NotImplemented outcome. -/
theorem c6_witness :
    (PcSS1call (fun _ _ _ _ _ x0 => (x0, [])) (!![(1 : ℝ)])
        (NPb.twoD 2 (!![(1 : ℝ), 2])) none 0 1 3 (!![(1 : ℝ)]) false none =
      P1Out.notImplemented) ∧
    (PcSS1call (fun _ _ _ _ _ x0 => (x0, [])) (!![(1 : ℝ)])
        (NPb.oneD ![1]) none 0 1 3 (!![(1 : ℝ)]) true none =
      P1Out.notImplemented) ∧
    (pcss3 (!![(1 : ℝ)]) ![1] (some ![1]) 0 1 3 (!![(1 : ℝ)]) false none false =
      P3Out.notImplemented) ∧
    (pcss3 (!![(1 : ℝ)]) ![1] none 1 1 3 (!![(1 : ℝ)]) false none false =
      P3Out.notImplemented) ∧
    (pcss3 (!![(1 : ℝ)]) ![1] none 0 1 3 (!![(1 : ℝ)]) true none false =
      P3Out.notImplemented) := by
  have hcv : (![1] : Fin 1 → ℝ) ≠ 0 := by
    intro h
    have := congrFun h 0
    norm_num at this
  exact
    ⟨c6_notimplemented_guards.1 1 1 1 2 _ _ _ _ _ _ _ _ _ _ (by norm_num),
      c6_notimplemented_guards.2.1 1 1 1 _ _ _ _ _ _ _ _ _,
      c6_notimplemented_guards.2.2.1 1 1 1 _ _ _ _ _ _ _ _ _ _ hcv,
      c6_notimplemented_guards.2.2.2.1 1 1 1 _ _ _ _ _ _ _ _ _ _ one_pos,
      c6_notimplemented_guards.2.2.2.2 1 1 1 _ _ _ _ _ _ _ _ _⟩

/-! ## C7: PcSS3 parameter auto-correction -/

theorem p3effTol_idem (tol : ℝ) : p3effTol (p3effTol tol) = p3effTol tol := by
  unfold p3effTol
  by_cases h : tol < MIN_TOL
  · rw [if_pos h, if_neg (lt_irrefl _)]
  · rw [if_neg h, if_neg h]

theorem p3effIterLim_idem (il n : ℕ) :
    p3effIterLim (p3effIterLim il n) n = p3effIterLim il n := by
  unfold p3effIterLim
  by_cases h : 5 * n < il
  · rw [if_pos h, if_neg (lt_irrefl _)]
  · rw [if_neg h, if_neg h]

/-- C7: PcSS3 auto-corrects out-of-range parameters without failing: a
tolerance below MIN_TOL = 10*eps is replaced by MIN_TOL, an iteration
limit above 5*n is clamped to 5*n, in each case emitting a warning naming
the substituted value (saddle.py lines 231-243); the run then proceeds
with the corrected values, expressed by the last conjunct: running with
the raw parameters is the same as running with the corrected ones. -/
theorem c7_param_autocorrect (tol : ℝ) (il n : ℕ) :
    (tol < MIN_TOL →
      p3effTol tol = MIN_TOL ∧
        P3Warn.tolClamped MIN_TOL ∈ p3warnings tol il n) ∧
    (5 * n < il →
      p3effIterLim il n = 5 * n ∧
        P3Warn.iterClamped (5 * n) ∈ p3warnings tol il n) ∧
    (∀ (m r : ℕ) (A : Matrix (Fin m) (Fin n) ℝ) (b : Fin m → ℝ)
        (c : Option (Fin n → ℝ)) (δ : ℝ) (M : Matrix (Fin n) (Fin r) ℝ)
        (ut : Bool) (z0 : Option (Fin r → ℝ)) (act : Bool),
      pcss3 A b c δ tol il M ut z0 act =
        pcss3 A b c δ (p3effTol tol) (p3effIterLim il n) M ut z0 act) := by
  refine ⟨?_, ?_, ?_⟩
  · intro h
    constructor
    · rw [p3effTol, if_pos h]
    · simp [p3warnings, if_pos h]
  · intro h
    constructor
    · rw [p3effIterLim, if_pos h]
    · simp [p3warnings, if_pos h]
  · intro m r A b c δ M ut z0 act
    simp only [pcss3, pcss3final, p3effTol_idem, p3effIterLim_idem]

/-- Witness for C7 at concrete parameters: tol = 0 is below the floor and
iter_lim = 100 exceeds 5*n for n = 1; both are substituted and both
warnings fire. -/
theorem c7_witness :
    (0 : ℝ) < MIN_TOL ∧ p3effTol 0 = MIN_TOL ∧
      P3Warn.tolClamped MIN_TOL ∈ p3warnings 0 100 1 ∧
      5 * 1 < 100 ∧ p3effIterLim 100 1 = 5 * 1 ∧
      P3Warn.iterClamped (5 * 1) ∈ p3warnings 0 100 1 := by
  have h1 : (0 : ℝ) < MIN_TOL := by unfold MIN_TOL; positivity
  have h2 : 5 * 1 < 100 := by norm_num
  exact ⟨h1, ((c7_param_autocorrect 0 100 1).1 h1).1,
    ((c7_param_autocorrect 0 100 1).1 h1).2, h2,
    ((c7_param_autocorrect 0 100 1).2.1 h2).1,
    ((c7_param_autocorrect 0 100 1).2.1 h2).2⟩

/-! ## C8: driver presolve discard -/

theorem fin_append_zero {p q : ℕ} :
    (Fin.append (0 : Fin p → ℝ) (0 : Fin q → ℝ)) = 0 := by
  funext i
  refine Fin.addCases (fun j => ?_) (fun j => ?_) i
  · rw [Fin.append_left]; rfl
  · rw [Fin.append_right]; rfl

/-- C8: SPS1 and SPS2 discard the presolve candidate rather than
warm-starting from it whenever it is not strictly better than the trivial
baseline: when the candidate residual norm (preconditioned
normal-equation residual for SPS1, saddlesys.py line 157; least-squares
residual for SPS2, line 252) is at least the right-hand-side norm, the
driver passes None as the warm start z0 to the iterative solver, and the
call still returns the solver result (no error path). -/
theorem c8_presolve_discard :
    (∀ (m n r : ℕ) (O : Type) (solver : Sps1Solver m n r O)
        (A : Matrix (Fin m) (Fin n) ℝ) (b : Option (Fin m → ℝ))
        (c : Option (Fin n → ℝ)) (δ tol : ℝ) (il : ℕ)
        (M : Matrix (Fin n) (Fin r) ℝ) (Vh : Matrix (Fin r) (Fin n) ℝ)
        (sigma : Fin r → ℝ),
      nrm (sps1rhspc M A (Option.getD b 0) c) ≤
          nrm (sps1lhspc M Vh sigma A (Option.getD b 0) c δ -
            sps1rhspc M A (Option.getD b 0) c) →
      sps1presolve M Vh sigma A (Option.getD b 0) c δ = none ∧
        SPS1call solver A b c δ tol il M Vh sigma =
          solver A (Option.getD b 0) c δ tol il M false none) ∧
    (∀ (m n d r : ℕ) (O : Type) (solver : Sps2Solver n r O)
        (A : Matrix (Fin m) (Fin n) ℝ) (b : Option (Fin m → ℝ))
        (c : Option (Fin n → ℝ)) (tol : ℝ) (il : ℕ)
        (S : Matrix (Fin d) (Fin m) ℝ) (U0 : Matrix (Fin d) (Fin r) ℝ)
        (U1 : Matrix (Fin (d + n)) (Fin r) ℝ) (sigma : Fin r → ℝ)
        (Vh : Matrix (Fin r) (Fin n) ℝ) (M : Matrix (Fin n) (Fin r) ℝ),
      nrm (sps2baug0 S U0 sigma Vh (Option.getD b 0) c) ≤
          nrm (sps2baug0 S U0 sigma Vh (Option.getD b 0) c -
            A.mulVec (M.mulVec (sps2zske0 S U0 sigma Vh (Option.getD b 0) c))) →
      sps2presolve0 A S U0 sigma Vh M (Option.getD b 0) c = none ∧
        SPS2call solver A b c 0 tol il S U0 U1 sigma Vh M =
          solver m A (sps2baug0 S U0 sigma Vh (Option.getD b 0) c)
            none 0 tol il M false none) ∧
    (∀ (m n d r : ℕ) (O : Type) (solver : Sps2Solver n r O)
        (A : Matrix (Fin m) (Fin n) ℝ) (b : Option (Fin m → ℝ))
        (c : Option (Fin n → ℝ)) (δ tol : ℝ) (il : ℕ)
        (S : Matrix (Fin d) (Fin m) ℝ) (U0 : Matrix (Fin d) (Fin r) ℝ)
        (U1 : Matrix (Fin (d + n)) (Fin r) ℝ) (sigma : Fin r → ℝ)
        (Vh : Matrix (Fin r) (Fin n) ℝ) (M : Matrix (Fin n) (Fin r) ℝ),
      0 < δ →
      nrm (sps2baug1 S U1 sigma Vh (Option.getD b 0) c) ≤
          nrm (sps2baug1 S U1 sigma Vh (Option.getD b 0) c -
            (aLift A (Real.sqrt δ)).mulVec
              (M.mulVec (sps2zske1 S U1 sigma Vh (Option.getD b 0) c))) →
      sps2presolve1 A δ S U1 sigma Vh M (Option.getD b 0) c = none ∧
        SPS2call solver A b c δ tol il S U0 U1 sigma Vh M =
          solver (m + n) (aLift A (Real.sqrt δ))
            (sps2baug1 S U1 sigma Vh (Option.getD b 0) c)
            none 0 tol il M false none) := by
  refine ⟨?_, ?_, ?_⟩
  · intro m n r O solver A b c δ tol il M Vh sigma h
    have hz : sps1presolve M Vh sigma A (Option.getD b 0) c δ = none := by
      unfold sps1presolve
      rw [if_pos h]
    exact ⟨hz, by simp only [SPS1call, hz]⟩
  · intro m n d r O solver A b c tol il S U0 U1 sigma Vh M h
    have hz : sps2presolve0 A S U0 sigma Vh M (Option.getD b 0) c = none := by
      unfold sps2presolve0
      rw [if_pos h]
    exact ⟨hz, by simp only [SPS2call, if_neg (lt_irrefl (0 : ℝ)), hz]⟩
  · intro m n d r O solver A b c δ tol il S U0 U1 sigma Vh M hδ h
    have hz : sps2presolve1 A δ S U1 sigma Vh M (Option.getD b 0) c = none := by
      unfold sps2presolve1
      rw [if_pos h]
    exact ⟨hz, by simp only [SPS2call, if_pos hδ, hz]⟩

/-- Witness for C8 at a concrete input: with b absent and c absent, every
right-hand side is zero, so the discard test holds with 0 <= 0 and each
driver passes None to its solver. -/
theorem c8_witness :
    sps1presolve (!![(1 : ℝ)]) (!![(1 : ℝ)]) ![1] (!![(1 : ℝ)])
        (Option.getD none 0) none 0 = none ∧
      sps2presolve0 (!![(1 : ℝ)]) (!![(1 : ℝ)]) (!![(1 : ℝ)]) ![1]
        (!![(1 : ℝ)]) (!![(1 : ℝ)]) (Option.getD none 0) none = none ∧
      sps2presolve1 (!![(1 : ℝ)]) 1 (!![(1 : ℝ)]) (!![(1 : ℝ); 1]) ![1]
        (!![(1 : ℝ)]) (!![(1 : ℝ)]) (Option.getD none 0) none = none := by
  have e1 : nrm (sps1rhspc (!![(1 : ℝ)]) (!![(1 : ℝ)])
      (Option.getD (none : Option (Fin 1 → ℝ)) 0) none) = 0 := by
    have hv : sps1rhspc (!![(1 : ℝ)]) (!![(1 : ℝ)])
        (Option.getD (none : Option (Fin 1 → ℝ)) 0) none = 0 := by
      funext i
      simp [sps1rhspc, sps1rhs, Matrix.mulVec, dotProduct]
    rw [hv, nrm_zero]
  have h1 : nrm (sps1rhspc (!![(1 : ℝ)]) (!![(1 : ℝ)]) (Option.getD none 0) none) ≤
      nrm (sps1lhspc (!![(1 : ℝ)]) (!![(1 : ℝ)]) ![1] (!![(1 : ℝ)])
          (Option.getD none 0) none 0 -
        sps1rhspc (!![(1 : ℝ)]) (!![(1 : ℝ)]) (Option.getD none 0) none) := by
    rw [e1]; exact nrm_nonneg _
  have e2 : nrm (sps2baug0 (!![(1 : ℝ)]) (!![(1 : ℝ)]) ![1] (!![(1 : ℝ)])
      (Option.getD (none : Option (Fin 1 → ℝ)) 0) none) = 0 := by
    have hv : sps2baug0 (!![(1 : ℝ)]) (!![(1 : ℝ)]) ![1] (!![(1 : ℝ)])
        (Option.getD (none : Option (Fin 1 → ℝ)) 0) none = 0 := by
      funext i
      simp [sps2baug0]
    rw [hv, nrm_zero]
  have h2 : nrm (sps2baug0 (!![(1 : ℝ)]) (!![(1 : ℝ)]) ![1] (!![(1 : ℝ)])
        (Option.getD (none : Option (Fin 1 → ℝ)) 0) none) ≤
      nrm (sps2baug0 (!![(1 : ℝ)]) (!![(1 : ℝ)]) ![1] (!![(1 : ℝ)])
          (Option.getD none 0) none -
        (!![(1 : ℝ)]).mulVec ((!![(1 : ℝ)]).mulVec
          (sps2zske0 (!![(1 : ℝ)]) (!![(1 : ℝ)]) ![1] (!![(1 : ℝ)])
            (Option.getD none 0) none))) := by
    rw [e2]; exact nrm_nonneg _
  have e3 : nrm (sps2baug1 (!![(1 : ℝ)]) (!![(1 : ℝ); 1]) ![1] (!![(1 : ℝ)])
      (Option.getD (none : Option (Fin 1 → ℝ)) 0) none) = 0 := by
    have hv : sps2baug1 (!![(1 : ℝ)]) (!![(1 : ℝ); 1]) ![1] (!![(1 : ℝ)])
        (Option.getD (none : Option (Fin 1 → ℝ)) 0) none = 0 := by
      rw [show sps2baug1 (!![(1 : ℝ)]) (!![(1 : ℝ); 1]) ![1] (!![(1 : ℝ)])
          (Option.getD (none : Option (Fin 1 → ℝ)) 0) none =
          Fin.append (0 : Fin 1 → ℝ) (0 : Fin 1 → ℝ) from rfl]
      exact fin_append_zero
    rw [hv, nrm_zero]
  have h3 : nrm (sps2baug1 (!![(1 : ℝ)]) (!![(1 : ℝ); 1]) ![1] (!![(1 : ℝ)])
        (Option.getD (none : Option (Fin 1 → ℝ)) 0) none) ≤
      nrm (sps2baug1 (!![(1 : ℝ)]) (!![(1 : ℝ); 1]) ![1] (!![(1 : ℝ)])
          (Option.getD none 0) none -
        (aLift (!![(1 : ℝ)]) (Real.sqrt 1)).mulVec ((!![(1 : ℝ)]).mulVec
          (sps2zske1 (!![(1 : ℝ)]) (!![(1 : ℝ); 1]) ![1] (!![(1 : ℝ)])
            (Option.getD none 0) none))) := by
    rw [e3]; exact nrm_nonneg _
  exact
    ⟨(c8_presolve_discard.1 1 1 1 (ULift ℕ)
        (fun _ _ _ _ _ _ _ _ _ => ULift.up 0) (!![(1 : ℝ)]) none none 0 1 3
        (!![(1 : ℝ)]) (!![(1 : ℝ)]) ![1] h1).1,
      (c8_presolve_discard.2.1 1 1 1 1 (ULift ℕ)
        (fun _ _ _ _ _ _ _ _ _ _ => ULift.up 0) (!![(1 : ℝ)]) none none 1 3
        (!![(1 : ℝ)]) (!![(1 : ℝ)]) (!![(1 : ℝ); 1]) ![1] (!![(1 : ℝ)])
        (!![(1 : ℝ)]) h2).1,
      (c8_presolve_discard.2.2 1 1 1 1 (ULift ℕ)
        (fun _ _ _ _ _ _ _ _ _ _ => ULift.up 0) (!![(1 : ℝ)]) none none 1 1 3
        (!![(1 : ℝ)]) (!![(1 : ℝ)]) (!![(1 : ℝ); 1]) ![1] (!![(1 : ℝ)])
        (!![(1 : ℝ)]) one_pos h3).1⟩

/-! ## C10: PcSS1 in-place rescaling of R -/

/-- C10 (amended): when delta > 0 (and R has at least one column, so that
line 122 does not raise), PcSS1 overwrites the array R with its
column-normalized rescaling times the ratios
sqrt(sigma_last^2+delta)/sqrt(sigma_j^2+delta) (saddle.py lines 113-122);
the overwritten contents can coincide with the original (for instance
when all columns already have unit norm, so the rescaling is trivial).
When delta = 0 the array R is never written.  The last conjunct ties the
final contents to a PcSS1 call that reaches the solve phase. -/
theorem c10_frame_amended {n p : ℕ} (δ : ℝ) (R : Matrix (Fin n) (Fin p) ℝ) :
    (δ ≤ 0 → pcss1finalR δ R = R) ∧
    (∀ (hδ : 0 < δ) (hp : 0 < p) (i : Fin n) (j : Fin p),
      pcss1finalR δ R i j =
        (R i j / nrmCol R j) *
          (pcss1S δ R ⟨p - 1, Nat.sub_lt hp one_pos⟩ / pcss1S δ R j)) ∧
    (∀ (m : ℕ) (pcgF : PcgFun n) (A : Matrix (Fin m) (Fin n) ℝ) (b : NPb m)
        (c : Option (Fin n → ℝ)) (tol : ℝ) (il : ℕ) (z0 : Option (Fin p → ℝ)),
      b.cols = 1 → ¬(0 < δ ∧ p = 0) →
      (PcSS1call pcgF A b c δ tol il R false z0).finalRof =
        some (pcss1finalR δ R)) := by
  refine ⟨?_, ?_, ?_⟩
  · intro hδ
    rw [pcss1finalR, dif_neg]
    rintro ⟨h1, _⟩
    exact absurd h1 (not_lt.mpr hδ)
  · intro hδ hp i j
    rw [pcss1finalR, dif_pos ⟨hδ, hp⟩]
    simp only [pcss1V]
    rw [div_div_eq_mul_div, mul_div_assoc, div_eq_mul_inv (R i j) (nrmCol R j)]
  · intro m pcgF A b c tol il z0 hb hguard
    unfold PcSS1call
    rw [if_neg (show ¬ b.cols ≠ 1 from fun hne => hne hb),
      if_neg (show ¬ (false = true) by simp), if_neg hguard]
    simp only [P1Out.finalRof]

/-- Counterexample for C10 as stated: with delta = 1 > 0 and R = [[1]]
(a single column of unit norm), the rescaling is the identity, so after
the call R still holds exactly its original contents, contradicting the
claim that R no longer holds its original contents whenever delta > 0. -/
theorem c10_counterexample :
    (PcSS1call (fun _ _ _ _ _ x0 => (x0, [])) (!![(2 : ℝ)]) (NPb.oneD ![3])
        none 1 1 5 (!![(1 : ℝ)]) false none).finalRof = some (!![(1 : ℝ)]) := by
  have hcol : ∀ j : Fin 1, nrmCol (!![(1 : ℝ)]) j = 1 := by
    intro j
    have hv : (fun i => (!![(1 : ℝ)]) i j) = ![1] := by
      funext i
      fin_cases i <;> fin_cases j <;> simp
    rw [nrmCol, hv, nrm_one_single]
  have hM : pcss1finalR (1 : ℝ) (!![(1 : ℝ)]) = !![(1 : ℝ)] := by
    funext i j
    rw [pcss1finalR, dif_pos ⟨one_pos, one_pos⟩]
    have hjj : (⟨1 - 1, Nat.sub_lt one_pos one_pos⟩ : Fin 1) = j :=
      Subsingleton.elim _ _
    rw [hjj]
    have hS : pcss1S 1 (!![(1 : ℝ)]) j ≠ 0 := by
      rw [pcss1S]
      refine ne_of_gt (Real.sqrt_pos.mpr ?_)
      positivity
    rw [div_self hS, div_one, pcss1V, hcol j]
    norm_num
  unfold PcSS1call
  rw [if_neg (show ¬ (NPb.oneD (![3] : Fin 1 → ℝ)).cols ≠ 1 by simp [NPb.cols]),
    if_neg (show ¬ (false = true) by simp),
    if_neg (show ¬ ((0 : ℝ) < 1 ∧ 1 = 0) by simp)]
  simp only [P1Out.finalRof, hM]

/-- Witness for C10 (amended) at concrete inputs: delta = 0 leaves
R = [[3]] unchanged, delta = 2 rescales its entry by the stated formula,
and a full PcSS1 call reports exactly those final contents. -/
theorem c10_witness :
    (pcss1finalR 0 (!![(3 : ℝ)]) = !![(3 : ℝ)]) ∧
    (pcss1finalR 2 (!![(3 : ℝ)]) 0 0 =
      ((!![(3 : ℝ)]) 0 0 / nrmCol (!![(3 : ℝ)]) 0) *
        (pcss1S 2 (!![(3 : ℝ)]) ⟨1 - 1, Nat.sub_lt one_pos one_pos⟩ /
          pcss1S 2 (!![(3 : ℝ)]) 0)) ∧
    ((PcSS1call (fun _ _ _ _ _ x0 => (x0, [])) (!![(2 : ℝ)]) (NPb.oneD ![3])
        none 2 1 5 (!![(3 : ℝ)]) false none).finalRof =
      some (pcss1finalR 2 (!![(3 : ℝ)]))) :=
  ⟨(c10_frame_amended 0 (!![(3 : ℝ)])).1 le_rfl,
    (c10_frame_amended 2 (!![(3 : ℝ)])).2.1 two_pos one_pos 0 0,
    (c10_frame_amended 2 (!![(3 : ℝ)])).2.2 1 _ _ _ _ _ _ _ rfl
      (by norm_num)⟩

/-! ## C1: consistency y = b - A x at return -/

/-- C1 (amended): the returned pair satisfies y = b - A x exactly for
PcSS1 (saddle.py line 156), for PcSS2 in the overdetermined regime
(line 185), and for PcSS3 (line 385, recomputed at return), for every
admissible input and every behaviour of the abstracted iterative kernels.
In the underdetermined regime of PcSS2 the returned y is the lsqr solution of
the adjoint system, not b - A x (and when delta = 0 the returned x is the
all-NaN sentinel), so that regime is excluded here. -/
theorem c1_consistency_amended :
    (∀ (m n p : ℕ) (pcgF : PcgFun n) (A : Matrix (Fin m) (Fin n) ℝ)
        (b : NPb m) (c : Option (Fin n → ℝ)) (δ tol : ℝ) (il : ℕ)
        (R : Matrix (Fin n) (Fin p) ℝ) (ut : Bool) (z0 : Option (Fin p → ℝ))
        (x : Fin n → ℝ) (y : Fin m → ℝ) (res : List ℝ)
        (fR : Matrix (Fin n) (Fin p) ℝ),
      PcSS1call pcgF A b c δ tol il R ut z0 = P1Out.ok x y res fR →
      y = b.toVec - A.mulVec x) ∧
    (∀ (m n r : ℕ) (Mfwd : (Fin r → ℝ) → (Fin n → ℝ)) (solO : Fin r → ℝ)
        (errsO : List ℝ) (codeO : ℕ) (solU0 : Fin m → ℝ)
        (solU1 : Fin (m + n) → ℝ) (errsU : List ℝ) (codeU : ℕ)
        (A : Matrix (Fin m) (Fin n) ℝ) (bv : Fin m → ℝ)
        (c : Option (Fin n → ℝ)) (δ : ℝ) (x : X2Res n) (y : Fin m → ℝ)
        (errs : List ℝ) (k : ℕ),
      optIsZero c →
      PcSS2call Mfwd solO errsO codeO solU0 solU1 errsU codeU A (some bv) c δ =
        P2Out.ok x y errs k →
      ∃ xv, x = X2Res.vec xv ∧ y = bv - A.mulVec xv) ∧
    (∀ (m n r : ℕ) (A : Matrix (Fin m) (Fin n) ℝ) (b : Fin m → ℝ)
        (c : Option (Fin n → ℝ)) (δ tol : ℝ) (il : ℕ)
        (M : Matrix (Fin n) (Fin r) ℝ) (ut : Bool) (z0 : Option (Fin r → ℝ))
        (act : Bool) (x : Fin n → ℝ) (y : Fin m → ℝ) (errs : List ℝ) (k : ℕ),
      pcss3 A b c δ tol il M ut z0 act = P3Out.ok x y errs k →
      y = b - A.mulVec x) := by
  refine ⟨?_, ?_, ?_⟩
  · intro m n p pcgF A b c δ tol il R ut z0 x y res fR h
    simp only [PcSS1call] at h
    split_ifs at h
    all_goals cases h
    all_goals rfl
  · intro m n r Mfwd solO errsO codeO solU0 solU1 errsU codeU A bv c δ x y
      errs k hC h
    unfold PcSS2call at h
    rw [if_pos hC] at h
    refine ⟨Mfwd solO, ?_, ?_⟩
    · exact (congrArg (fun o => match o with
        | P2Out.ok x2 _ _ _ => x2
        | _ => x) h).symm
    · exact (congrArg (fun o => match o with
        | P2Out.ok _ y2 _ _ => y2
        | _ => y) h).symm
  · intro m n r A b c δ tol il M ut z0 act x y errs k h
    unfold pcss3 at h
    split_ifs at h
    cases hfin : pcss3final A M b act tol il z0 with
    | none => rw [hfin] at h; exact absurd h (by simp)
    | some s =>
      rw [hfin] at h
      injection h with h1 h2 h3 h4
      rw [← h1, ← h2]

/-- Counterexample for C1 as stated: in the underdetermined regime of PcSS2
with delta = 0 (b absent, c = [1] nonzero) the returned x is the all-NaN
sentinel, so the returned pair does not satisfy y = b - A x (with NaN
entries the floating-point equation is false); this holds for any
behaviour of the abstracted lsqr kernel, instantiated concretely here. -/
theorem c1_counterexample :
    ¬ p2consistent (!![(1 : ℝ)]) 0
        (PcSS2call (fun v : Fin 1 → ℝ => v) 0 [] 0 ![5] 0 [] 0 (!![(1 : ℝ)])
          none (some ![1]) 0) := by
  have hc : ¬ optIsZero (some (![1] : Fin 1 → ℝ)) := by
    show ¬ nrm (![1] : Fin 1 → ℝ) = 0
    rw [nrm_one_single]; norm_num
  unfold PcSS2call
  rw [if_neg hc, if_pos (show optIsZero (none : Option (Fin 1 → ℝ)) from trivial)]
  simp [p2consistent, lt_irrefl]

/-- Witness for C1 (amended) at concrete inputs: each of the three
conjuncts applied to a concrete run. -/
theorem c1_witness :
    ((![2] : Fin 1 → ℝ) - (!![(1 : ℝ)]).mulVec 0 =
      (NPb.oneD (![2] : Fin 1 → ℝ)).toVec - (!![(1 : ℝ)]).mulVec 0) ∧
    (∃ xv, X2Res.vec (![4] : Fin 1 → ℝ) = X2Res.vec xv ∧
      (![7] : Fin 1 → ℝ) - (!![(1 : ℝ)]).mulVec ![4] =
        ![7] - (!![(1 : ℝ)]).mulVec xv) ∧
    ((![1] : Fin 1 → ℝ) - (!![(1 : ℝ)]).mulVec exSc1.x =
      ![1] - (!![(1 : ℝ)]).mulVec exSc1.x) := by
  have h1 : PcSS1call (fun _ _ _ _ _ x0 => (x0, [])) (!![(1 : ℝ)])
      (NPb.oneD ![2]) none 0 1 3 (!![(1 : ℝ)]) false none =
      P1Out.ok 0 ((![2] : Fin 1 → ℝ) - (!![(1 : ℝ)]).mulVec 0) []
        (pcss1finalR 0 (!![(1 : ℝ)])) := by
    unfold PcSS1call
    rw [if_neg (show ¬ (NPb.oneD (![2] : Fin 1 → ℝ)).cols ≠ 1 by simp [NPb.cols]),
      if_neg (show ¬ (false = true) by simp),
      if_neg (show ¬ ((0 : ℝ) < 0 ∧ 1 = 0) by simp)]
    rfl
  have h2 : PcSS2call (fun v : Fin 1 → ℝ => v) ![4] [] 0 0 0 [] 0
      (!![(1 : ℝ)]) (some ![7]) none 0 =
      P2Out.ok (X2Res.vec (![4] : Fin 1 → ℝ))
        ((![7] : Fin 1 → ℝ) - (!![(1 : ℝ)]).mulVec ![4]) [] 0 := by
    unfold PcSS2call
    rw [if_pos (show optIsZero (none : Option (Fin 1 → ℝ)) from trivial)]
  have h3 : pcss3 (!![(1 : ℝ)]) ![1] none 0 1 0 (!![(1 : ℝ)]) false none false =
      P3Out.ok exSc1.x ((![1] : Fin 1 → ℝ) - (!![(1 : ℝ)]).mulVec exSc1.x)
        exSc1.errors
        (p3code false (p3effTol 1) (p3metric1 ![1] exSc1) (p3metric2 exSc1)) := by
    have hfin : pcss3final (!![(1 : ℝ)]) (!![(1 : ℝ)]) ![1] false 1 0 none =
        some exSc1 := by
      unfold pcss3final p3init p3effIterLim
      rw [if_neg (show ¬ 5 * 1 < 0 by norm_num)]
      rfl
    unfold pcss3
    rw [if_neg (show ¬ (none : Option (Fin 1 → ℝ)) ≠ none by simp),
      if_neg (lt_irrefl (0 : ℝ)), if_neg (show ¬ (false = true) by simp), hfin]
  exact
    ⟨c1_consistency_amended.1 1 1 1 _ _ _ _ _ _ _ _ _ _ _ _ _ _ h1,
      c1_consistency_amended.2.1 1 1 1 (fun v : Fin 1 → ℝ => v) ![4] [] 0 0 0
        [] 0 (!![(1 : ℝ)]) ![7] none 0 (X2Res.vec (![4] : Fin 1 → ℝ))
        ((![7] : Fin 1 → ℝ) - (!![(1 : ℝ)]).mulVec ![4]) [] 0 trivial h2,
      c1_consistency_amended.2.2 1 1 1 _ _ _ _ _ _ _ _ _ _ _ _ _ _ h3⟩

/-! ## C5: low-rank preconditioner fallback with a rank-0 R -/

/-- C5: evaluation of PcSS1 at the zero-rank preconditioner (R with zero
columns, the rank-0 zero matrix of the spec, whose rank field is its
column count).  The claim expects the call to reduce exactly to
identity-preconditioned CG; instead the code crashes for every delta.
First conjunct: with delta = 0 the preconditioner map handed to pcg
evaluates to the unbound-local error on every vector, because the
low-rank branch of mv_pre reads the local V that is only assigned when
delta > 0 (saddle.py lines 115, 131-135).  Second conjunct: with
delta = 1 > 0 the call raises IndexError at sing_vals[-1] on an empty
array (line 122) before pcg ever runs. -/
theorem c5_rank0_fallback_bug :
    (∀ v : Fin 1 → ℝ, pcss1mvPre (0 : ℝ) (0 : Matrix (Fin 1) (Fin 0) ℝ) v = none) ∧
    (∀ (pcgF : PcgFun 1) (c : Option (Fin 1 → ℝ)) (tol : ℝ) (il : ℕ)
        (z0 : Option (Fin 0 → ℝ)),
      PcSS1call pcgF (!![(2 : ℝ)]) (NPb.oneD ![3]) c 1 tol il
          (0 : Matrix (Fin 1) (Fin 0) ℝ) false z0 = P1Out.indexError) := by
  constructor
  · intro v
    unfold pcss1mvPre
    rw [if_neg (show ¬ (0 = 1) by norm_num), if_neg (lt_irrefl (0 : ℝ))]
  · intro pcgF c tol il z0
    unfold PcSS1call
    rw [if_neg (show ¬ (NPb.oneD (![3] : Fin 1 → ℝ)).cols ≠ 1 by simp [NPb.cols]),
      if_neg (show ¬ (false = true) by simp),
      if_pos (show (0 : ℝ) < 1 ∧ 0 = 0 from ⟨one_pos, rfl⟩)]

/-! ## C3: the consistency metric of PcSS3 -/

theorem p3init_inv {m n r : ℕ} (A : Matrix (Fin m) (Fin n) ℝ)
    (M : Matrix (Fin n) (Fin r) ℝ) (b : Fin m → ℝ)
    (z0 : Option (Fin r → ℝ)) (s : P3State m n r)
    (h : p3init A M b z0 = some s) : p3inv A M b s := by
  unfold p3init at h
  cases z0 with
  | none =>
    injection h with h2
    subst h2
    exact ⟨by simp [p3preCheck, Matrix.mulVec_zero],
      by simp [p3preCheck, Matrix.mulVec_zero]⟩
  | some w =>
    dsimp only at h
    by_cases hw : 0 < nrm w
    · rw [if_pos hw] at h
      cases hst : stepSize A b 0 (M.mulVec w) with
      | none => rw [hst] at h; exact absurd h (by simp)
      | some a =>
        rw [hst] at h
        injection h with h2
        subst h2
        refine ⟨?_, ?_⟩
        · show a • M.mulVec w = M.mulVec (a • w)
          rw [Matrix.mulVec_smul]
        · show b - A.mulVec (a • M.mulVec w) = b - A.mulVec (a • M.mulVec w)
          rfl
    · rw [if_neg hw] at h
      injection h with h2
      subst h2
      exact ⟨by simp [p3preCheck, Matrix.mulVec_zero],
        by simp [p3preCheck, Matrix.mulVec_zero]⟩

theorem p3body_inv {m n r : ℕ} (A : Matrix (Fin m) (Fin n) ℝ)
    (M : Matrix (Fin n) (Fin r) ℝ) (b : Fin m → ℝ) (a : ℝ)
    (s : P3State m n r) (hs : p3inv A M b s) :
    p3inv A M b (p3body A M b a s) := by
  obtain ⟨hx, hy⟩ := hs
  refine ⟨?_, ?_⟩
  · show s.x + a • M.mulVec s.dz = M.mulVec (s.z + a • s.dz)
    rw [Matrix.mulVec_add, Matrix.mulVec_smul, hx]
  · show s.y - A.mulVec (a • M.mulVec s.dz) =
      b - A.mulVec (s.x + a • M.mulVec s.dz)
    rw [Matrix.mulVec_add, hy, sub_sub]

theorem p3loop_inv {m n r : ℕ} (A : Matrix (Fin m) (Fin n) ℝ)
    (M : Matrix (Fin n) (Fin r) ℝ) (b : Fin m → ℝ) (act : Bool) (tol : ℝ)
    (fuel : ℕ) (s : P3State m n r) (hs : p3inv A M b s) :
    p3inv A M b (p3loop A M b act tol fuel s) := by
  induction fuel generalizing s with
  | zero => exact hs
  | succ fuel ih =>
    rw [p3loop]
    split_ifs with hcond
    · cases stepSize A b s.x (M.mulVec s.dz) with
      | none => exact hs
      | some a =>
        dsimp only
        split_ifs with ha
        · exact hs
        · exact ih _ (p3body_inv A M b a s hs)
    · exact hs

/-- C3 (amended): at every point where PcSS3 computes its
consistency-style metric (the pre-loop check of saddle.py line 327 and
every loop iteration, line 374) the value is
metric1 = la.norm(y) / (la.norm(b) + sqrt(n) * la.norm(z)), where z is
the iterate in preconditioned coordinates, not x; the remaining conjuncts
show that every state at which the metric is evaluated satisfies
x = M z and y = b - A x, so the norm in the denominator is the norm of
the preconditioned twin of x (these differ whenever M rescales, see the
counterexample). -/
theorem c3_metric1_amended :
    (∀ (m n r : ℕ) (b : Fin m → ℝ) (s : P3State m n r),
      p3metric1 b s = nrm s.y / (nrm b + Real.sqrt (n : ℝ) * nrm s.z)) ∧
    (∀ (m n r : ℕ) (A : Matrix (Fin m) (Fin n) ℝ)
        (M : Matrix (Fin n) (Fin r) ℝ) (b : Fin m → ℝ)
        (z0 : Option (Fin r → ℝ)) (s : P3State m n r),
      p3init A M b z0 = some s → p3inv A M b s) ∧
    (∀ (m n r : ℕ) (A : Matrix (Fin m) (Fin n) ℝ)
        (M : Matrix (Fin n) (Fin r) ℝ) (b : Fin m → ℝ) (a : ℝ)
        (s : P3State m n r),
      p3inv A M b s → p3inv A M b (p3body A M b a s)) ∧
    (∀ (m n r : ℕ) (A : Matrix (Fin m) (Fin n) ℝ)
        (M : Matrix (Fin n) (Fin r) ℝ) (b : Fin m → ℝ) (act : Bool)
        (tol : ℝ) (fuel : ℕ) (s : P3State m n r),
      p3inv A M b s → p3inv A M b (p3loop A M b act tol fuel s)) :=
  ⟨fun _ _ _ _ _ => rfl,
    fun _ _ _ A M b z0 s h => p3init_inv A M b z0 s h,
    fun _ _ _ A M b a s hs => p3body_inv A M b a s hs,
    fun _ _ _ A M b act tol fuel s hs => p3loop_inv A M b act tol fuel s hs⟩

theorem nrm_pair (a c : ℝ) : nrm ![a, c] = Real.sqrt (a ^ 2 + c ^ 2) := by
  rw [nrm, Fin.sum_univ_two]
  simp

/-- Counterexample for C3 as stated: on A = [[1],[0]], b = (1,1),
M = [[2]] with warm start z0 = [1], the pre-loop check is reached with
x = [1], z = [1/2], y = (0,1); the metric the code computes,
||y||/(||b|| + sqrt(n)||z||) = 1/(sqrt 2 + 1/2), differs from the claimed
||y||/(||b|| + sqrt(n)||x||) = 1/(sqrt 2 + 1). -/
theorem c3_counterexample :
    p3init exA3 exM3 exb3 (some ![1]) = some exS3 ∧
      p3metric1 exb3 exS3 ≠
        nrm exS3.y / (nrm exb3 + Real.sqrt 1 * nrm exS3.x) := by
  have e1 : exM3.mulVec ![1] = ![2] := by
    funext i
    fin_cases i
    simp [exM3, Matrix.mulVec, Matrix.dotProduct, Fin.sum_univ_one]
  have e2 : exA3.mulVec ![2] = ![2, 0] := by
    funext i
    fin_cases i <;>
      simp [exA3, Matrix.mulVec, Matrix.dotProduct, Fin.sum_univ_one]
  have e3 : nrm (![2, 0] : Fin 2 → ℝ) = 2 := by
    rw [nrm_pair]
    rw [show (2 : ℝ) ^ 2 + 0 ^ 2 = 2 ^ 2 by norm_num]
    exact Real.sqrt_sq (by norm_num)
  have e4 : stepSize exA3 exb3 0 (exM3.mulVec ![1]) = some (1 / 2) := by
    rw [e1]
    unfold stepSize
    rw [e2]
    dsimp only
    rw [e3, if_pos two_pos]
    congr 1
    rw [Matrix.mulVec_zero]
    rw [show ((2 : ℝ)⁻¹ • (![2, 0] : Fin 2 → ℝ)) ⬝ᵥ
        ((0 : Fin 2 → ℝ) - exb3) = -1 by
      simp [Matrix.dotProduct, Fin.sum_univ_two, exb3]]
    norm_num
  have e6 : ((1 / 2 : ℝ)) • (![2] : Fin 1 → ℝ) = ![1] := by
    funext i
    fin_cases i
    norm_num
  have e7 : exA3.mulVec ![1] = ![1, 0] := by
    funext i
    fin_cases i <;>
      simp [exA3, Matrix.mulVec, Matrix.dotProduct, Fin.sum_univ_one]
  have e8 : exA3ᵀ.mulVec exb3 = ![1] := by
    funext i
    fin_cases i
    simp [exA3, exb3, Matrix.mulVec, Matrix.dotProduct, Fin.sum_univ_two]
  have e9 : exA3ᵀ.mulVec ![1, 0] = ![1] := by
    funext i
    fin_cases i
    simp [exA3, Matrix.mulVec, Matrix.dotProduct, Fin.sum_univ_two]
  have e10 : exb3 - ![1, 0] = ![0, 1] := by
    funext i
    fin_cases i <;> simp [exb3]
  have e11 : (![1] : Fin 1 → ℝ) - ![1] = ![0] := by
    funext i
    fin_cases i
    simp
  have e12 : ((1 / 2 : ℝ)) • (![1] : Fin 1 → ℝ) = ![1 / 2] := by
    funext i
    fin_cases i
    norm_num
  have e13 : exM3ᵀ.mulVec ![0] = ![0] := by
    funext i
    fin_cases i
    simp [exM3, Matrix.mulVec, Matrix.dotProduct, Fin.sum_univ_one]
  constructor
  · unfold p3init
    dsimp only
    rw [if_pos (show (0 : ℝ) < nrm ![1] by rw [nrm_one_single]; norm_num), e4]
    dsimp only
    rw [e1, e6, e12, e7, e8, e9, e10, e11]
    congr 1
    unfold p3preCheck
    dsimp only
    rw [e13, nrm_single 0 le_rfl]
    rfl
  · have hy : nrm exS3.y = 1 := by
      show nrm ![0, 1] = 1
      rw [nrm_pair]
      rw [show (0 : ℝ) ^ 2 + 1 ^ 2 = 1 by norm_num]
      exact Real.sqrt_one
    have hb : nrm exb3 = Real.sqrt 2 := by
      show nrm ![1, 1] = Real.sqrt 2
      rw [nrm_pair]
      norm_num
    have hz : nrm exS3.z = 1 / 2 := by
      show nrm ![1 / 2] = 1 / 2
      exact nrm_single _ (by norm_num)
    have hx : nrm exS3.x = 1 := by
      show nrm ![1] = 1
      exact nrm_one_single
    rw [p3metric1, hy, hb, hz, hx]
    rw [show ((1 : ℕ) : ℝ) = 1 from Nat.cast_one, Real.sqrt_one]
    have hpos : (0 : ℝ) < Real.sqrt 2 + 1 * (1 / 2) := by positivity
    have hlt : 1 / (Real.sqrt 2 + 1 * 1) < 1 / (Real.sqrt 2 + 1 * (1 / 2)) := by
      apply div_lt_div_of_pos_left one_pos hpos
      norm_num
    exact hlt.ne'

/-- Witness for C3 (amended) at a concrete input: the pre-loop state of a
1-by-1 run satisfies the invariant, the invariant is preserved by a loop
body step and by the loop, and the metric evaluates by the stated
formula. -/
theorem c3_witness :
    p3inv (!![(1 : ℝ)]) (!![(1 : ℝ)]) ![1] exSc1 ∧
    p3inv (!![(1 : ℝ)]) (!![(1 : ℝ)]) ![1]
      (p3body (!![(1 : ℝ)]) (!![(1 : ℝ)]) ![1] 1 exSc1) ∧
    p3inv (!![(1 : ℝ)]) (!![(1 : ℝ)]) ![1]
      (p3loop (!![(1 : ℝ)]) (!![(1 : ℝ)]) ![1] false 1 3 exSc1) ∧
    p3metric1 ![1] exSc1 =
      nrm exSc1.y /
        (nrm (![1] : Fin 1 → ℝ) + Real.sqrt ((1 : ℕ) : ℝ) * nrm exSc1.z) := by
  have h0 : p3init (!![(1 : ℝ)]) (!![(1 : ℝ)]) ![1] none = some exSc1 := rfl
  have hinv := c3_metric1_amended.2.1 1 1 1 (!![(1 : ℝ)]) (!![(1 : ℝ)]) ![1]
    none exSc1 h0
  exact ⟨hinv,
    c3_metric1_amended.2.2.1 1 1 1 (!![(1 : ℝ)]) (!![(1 : ℝ)]) ![1] 1 exSc1 hinv,
    c3_metric1_amended.2.2.2 1 1 1 (!![(1 : ℝ)]) (!![(1 : ℝ)]) ![1] false 1 3
      exSc1 hinv,
    c3_metric1_amended.1 1 1 1 ![1] exSc1⟩

/-! ## C4: PcSS3 termination codes -/

theorem exS4_final : pcss3final exA4 exM4 exb4 false 1 0 none = some exS4 := by
  have er : exA4ᵀ.mulVec exb4 = ![3] := by
    funext i
    fin_cases i
    simp [exA4, exb4, Matrix.mulVec, Matrix.dotProduct, Fin.sum_univ_one]
  have ed : exM4ᵀ.mulVec ![3] = ![3] := by
    funext i
    fin_cases i
    simp [exM4, Matrix.mulVec, Matrix.dotProduct, Fin.sum_univ_one]
  have hIL : p3effIterLim 0 1 = 0 := by
    rw [p3effIterLim, if_neg (by norm_num : ¬ 5 * 1 < 0)]
  unfold pcss3final
  rw [hIL]
  unfold p3init
  dsimp only [Option.map]
  rw [er]
  unfold p3loop
  congr 1
  unfold p3preCheck
  dsimp only
  rw [ed, nrm_single 3 (by norm_num)]
  rfl

theorem exS4_metric1 : p3metric1 exb4 exS4 = 1 := by
  dsimp only [p3metric1, exS4, exb4]
  rw [nrm_one_single, nrm_zero]
  norm_num

theorem exS4_metric2 : p3metric2 exS4 = 3 := by
  dsimp only [p3metric2, exS4]
  rw [nrm_one_single, Nat.cast_one, Real.sqrt_one]
  norm_num

theorem p3effTol_one : p3effTol 1 = 1 := by
  rw [p3effTol, if_neg]
  rw [MIN_TOL]
  norm_num

/-- C4 (amended): the termination code PcSS3 returns is determined by the
final metrics and the allow_consistent_term flag (saddle.py lines
378-383): code 1 exactly when the flag is set and metric1 <= tol (the
effective, clamped tolerance), code 2 exactly when metric2 <= tol and the
code is not 1, and code 7 otherwise — which covers both iteration-limit
exhaustion and an early line-search stall, and in particular code is
never 1 when the flag is off, even if the consistency criterion holds. -/
theorem c4_termination_codes_amended {m n r : ℕ}
    (A : Matrix (Fin m) (Fin n) ℝ) (b : Fin m → ℝ) (tol : ℝ) (il : ℕ)
    (M : Matrix (Fin n) (Fin r) ℝ) (z0 : Option (Fin r → ℝ)) (act : Bool)
    (s : P3State m n r) (hfin : pcss3final A M b act tol il z0 = some s) :
    pcss3 A b none 0 tol il M false z0 act =
      P3Out.ok s.x (b - A.mulVec s.x) s.errors
        (p3code act (p3effTol tol) (p3metric1 b s) (p3metric2 s)) ∧
    (p3code act (p3effTol tol) (p3metric1 b s) (p3metric2 s) = 1 ↔
      act = true ∧ p3metric1 b s ≤ p3effTol tol) ∧
    (p3code act (p3effTol tol) (p3metric1 b s) (p3metric2 s) = 2 ↔
      ¬(act = true ∧ p3metric1 b s ≤ p3effTol tol) ∧
        p3metric2 s ≤ p3effTol tol) ∧
    (p3code act (p3effTol tol) (p3metric1 b s) (p3metric2 s) = 7 ↔
      ¬(act = true ∧ p3metric1 b s ≤ p3effTol tol) ∧
        ¬ p3metric2 s ≤ p3effTol tol) := by
  refine ⟨?_, ?_, ?_, ?_⟩
  · unfold pcss3
    rw [if_neg (show ¬ (none : Option (Fin n → ℝ)) ≠ none by simp),
      if_neg (lt_irrefl (0 : ℝ)), if_neg (show ¬ (false = true) by simp), hfin]
  · rw [p3code]
    split_ifs with h1 h2
    · simp [h1]
    · simp [h1]
    · simp [h1]
  · rw [p3code]
    split_ifs with h1 h2
    · simp [h1]
    · simp [h1, h2]
    · simp [h1, h2]
  · rw [p3code]
    split_ifs with h1 h2
    · simp [h1]
    · simp [h1, h2]
    · simp [h1, h2]

/-- Counterexample for C4 as stated: with allow_consistent_term off
(its default), tol = 1 and iter_lim = 0 on A = [[3]], b = [1], the final
state satisfies the consistency criterion metric1 <= tol, yet the
returned code is 7, not 1 — so code 1 is not returned exactly when the
consistency criterion is met, and code 7 does not imply that neither
criterion was met. -/
theorem c4_counterexample :
    pcss3final exA4 exM4 exb4 false 1 0 none = some exS4 ∧
      p3metric1 exb4 exS4 ≤ p3effTol 1 ∧
      (pcss3 exA4 exb4 none 0 1 0 exM4 false none false).codeOf = some 7 := by
  refine ⟨exS4_final, ?_, ?_⟩
  · rw [exS4_metric1, p3effTol_one]
  · unfold pcss3
    rw [if_neg (show ¬ (none : Option (Fin 1 → ℝ)) ≠ none by simp),
      if_neg (lt_irrefl (0 : ℝ)), if_neg (show ¬ (false = true) by simp),
      exS4_final]
    dsimp only [P3Out.codeOf]
    congr 1
    rw [p3code, if_neg (fun h => Bool.false_ne_true h.1), if_neg]
    rw [exS4_metric2, p3effTol_one]
    norm_num

/-- Witness for C4 (amended) at a concrete input, instantiating the
trichotomy at the run of the counterexample input. -/
theorem c4_witness :
    pcss3 exA4 exb4 none 0 1 0 exM4 false none false =
      P3Out.ok exS4.x (exb4 - exA4.mulVec exS4.x) exS4.errors
        (p3code false (p3effTol 1) (p3metric1 exb4 exS4) (p3metric2 exS4)) ∧
    (p3code false (p3effTol 1) (p3metric1 exb4 exS4) (p3metric2 exS4) = 1 ↔
      false = true ∧ p3metric1 exb4 exS4 ≤ p3effTol 1) ∧
    (p3code false (p3effTol 1) (p3metric1 exb4 exS4) (p3metric2 exS4) = 2 ↔
      ¬(false = true ∧ p3metric1 exb4 exS4 ≤ p3effTol 1) ∧
        p3metric2 exS4 ≤ p3effTol 1) ∧
    (p3code false (p3effTol 1) (p3metric1 exb4 exS4) (p3metric2 exS4) = 7 ↔
      ¬(false = true ∧ p3metric1 exb4 exS4 ≤ p3effTol 1) ∧
        ¬ p3metric2 exS4 ≤ p3effTol 1) :=
  c4_termination_codes_amended exA4 exb4 1 0 exM4 none false exS4 exS4_final

end

end Parla
